import Mathlib

/-!
Shallow embedding of the YukiPasch/currency repository: the incremental
loader `currency_api.py` and the backfill loader `currency_api_date.py`.

Modelling conventions:
  * Calendar dates are day numbers (days since 1970-01-01, `Nat`);
    `daysFromCivil` converts a civil date to its day number, so the
    hard-coded backfill boundaries of the source are exact.
  * A pandas `DataFrame` is a list of column names plus rows of `Cell`s.
  * External effects are oracles passed in explicitly: the outcome of the
    HTTP request plus XML parse (`Except String DataFrame`), the outcome of
    each database / CSV write (`Bool`), the health of the store connection
    probe (`Bool`), the outcome of `pd.concat` (`Bool`) and of the
    inter-request sleep (`Nat → Bool`).
  * Python code that may raise is embedded as `Except String _`; a
    `try/except` of the source becomes a `match` on that value.  The
    orchestrators return a `RunOut` whose `crashed` field is `some msg`
    exactly when an exception escaped the function uncaught.
  * Log statements and calls into fetch/persist are recorded as an `Event`
    trace, so frame claims ("save_data is never invoked") are statable.
-/

namespace Currency

/-- A scalar value held in one DataFrame cell. -/
inductive Cell where
  | str (s : String)
  | int (n : Int)
  | rat (q : ℚ)
  | date (d : Nat)
  deriving DecidableEq

/-- A pandas DataFrame: ordered column names and rows of cells (each row
aligned positionally with `columns`). -/
structure DataFrame where
  columns : List String
  rows : List (List Cell)
  deriving DecidableEq

/-- The empty DataFrame `pd.DataFrame()`. -/
def DataFrame.emptyDF : DataFrame := ⟨[], []⟩

/-- Effectful map over a list in the `Except` monad (models a pandas
column-wise operation that raises on the first bad element). -/
def mapME {α β : Type} (f : α → Except String β) : List α → Except String (List β)
  | [] => Except.ok []
  | a :: as => do
    let b ← f a
    let bs ← mapME f as
    pure (b :: bs)

/-- Position of a column name in a column list (first match). -/
def colIndex (c : String) : List String → Option Nat
  | [] => none
  | c' :: cs => if c' = c then some 0 else (colIndex c cs).map (fun i => i + 1)

/-- Assignment `df[c] = v` of one constant value: overwrites the column if
present, otherwise appends a new column at the end (pandas semantics). -/
def setConstCol (df : DataFrame) (c : String) (v : Cell) : DataFrame :=
  match colIndex c df.columns with
  | some i => ⟨df.columns, df.rows.map (fun r => r.set i v)⟩
  | none => ⟨df.columns ++ [c], df.rows.map (fun r => r ++ [v])⟩

/-- Apply a fallible cell conversion at position `i` of a row. -/
def convertCellAt (i : Nat) (f : Cell → Except String Cell) (r : List Cell) :
    Except String (List Cell) :=
  match r[i]? with
  | some c => do
      let c' ← f c
      pure (r.set i c')
  | none => Except.error "length mismatch"

/-- Column-wise fallible conversion `df[c] = df[c].map f`; raises `KeyError`
when the column is absent, and propagates the first per-cell failure
(models `.str.replace` / `.astype` raising). -/
def mapColE (df : DataFrame) (c : String) (f : Cell → Except String Cell) :
    Except String DataFrame :=
  match colIndex c df.columns with
  | some i => do
      let rows ← mapME (convertCellAt i f) df.rows
      pure ⟨df.columns, rows⟩
  | none => Except.error ("KeyError: " ++ c)

/-- Numeric view of a cell, as used by pandas arithmetic between columns. -/
def Cell.toRatE : Cell → Except String ℚ
  | Cell.rat q => Except.ok q
  | Cell.int n => Except.ok (n : ℚ)
  | _ => Except.error "unsupported operand type"

/-- The per-row quotient cell for `df[a] / df[b]`. -/
def rateCell (ia ib : Nat) (r : List Cell) : Except String Cell :=
  match r[ia]?, r[ib]? with
  | some x, some y => do
      let qx ← x.toRatE
      let qy ← y.toRatE
      pure (Cell.rat (qx / qy))
  | _, _ => Except.error "length mismatch"

/-- Assignment `df[newc] = df[a] / df[b]` (overwrite if `newc` exists,
else append the new column at the end). -/
def addDivCol (df : DataFrame) (newc a b : String) : Except String DataFrame :=
  match colIndex a df.columns, colIndex b df.columns with
  | some ia, some ib =>
    match colIndex newc df.columns with
    | some j => do
        let rows ← mapME (fun r => do pure (r.set j (← rateCell ia ib r))) df.rows
        pure ⟨df.columns, rows⟩
    | none => do
        let rows ← mapME (fun r => do pure (r ++ [← rateCell ia ib r])) df.rows
        pure ⟨df.columns ++ [newc], rows⟩
  | _, _ => Except.error "KeyError"

/-- Column renaming `df.rename(columns = m)`. -/
def renameCols (df : DataFrame) (m : List (String × String)) : DataFrame :=
  ⟨df.columns.map (fun c => match m.lookup c with | some c' => c' | none => c), df.rows⟩

/-- Projection of one row onto the given column positions. -/
def projectRow (idxs : List Nat) (r : List Cell) : Except String (List Cell) :=
  mapME (fun i =>
    match r[i]? with
    | some c => Except.ok c
    | none => Except.error "length mismatch") idxs

/-- Column selection `df[[c1, ..., ck]]`, raising `KeyError` on a missing
column; the result's columns are exactly `cs` in the requested order. -/
def selectCols (df : DataFrame) (cs : List String) : Except String DataFrame := do
  let idxs ← mapME (fun c =>
    match colIndex c df.columns with
    | some i => Except.ok i
    | none => Except.error ("KeyError: " ++ c)) cs
  let rows ← mapME (projectRow idxs) df.rows
  pure ⟨cs, rows⟩

/-- Value of an all-digit character list, `none` on a non-digit. -/
def digitsToNat? (cs : List Char) : Option Nat :=
  cs.foldl
    (fun acc c => acc.bind (fun n => if c.isDigit then some (n * 10 + (c.toNat - 48)) else none))
    (some 0)

/-- Model of Python `float(s)` on the strings this pipeline produces:
an unsigned decimal literal `digits[.digits]`; `none` models the
`ValueError` raised on anything else. -/
def parseDecimal (s : String) : Option ℚ :=
  match s.splitOn "." with
  | [w] =>
      if w.isEmpty then none
      else (digitsToNat? w.data).map (fun n => (n : ℚ))
  | [w, f] =>
      if w.isEmpty ∧ f.isEmpty then none
      else do
        let wn ← digitsToNat? w.data
        let fn ← digitsToNat? f.data
        pure ((wn : ℚ) + (fn : ℚ) / ((10 : ℚ) ^ f.length))
  | _ => none

/-- Model of Python `int(s)`: optional minus sign then digits. -/
def parseIntStr? (s : String) : Option Int :=
  match s.data with
  | [] => none
  | '-' :: rest =>
      if rest.isEmpty then none
      else (digitsToNat? rest).map (fun n => -(n : Int))
  | cs => (digitsToNat? cs).map (fun n => (n : Int))

/-- The source's `str.replace(',', '.')` on the Value column. -/
def commaToDot (s : String) : String := s.replace "," "."

/-- Conversion applied to the `Value` column:
`df['Value'].str.replace(',', '.').astype(float)` per cell. -/
def valueConv : Cell → Except String Cell
  | Cell.str s =>
      match parseDecimal (commaToDot s) with
      | some q => Except.ok (Cell.rat q)
      | none => Except.error "could not convert string to float"
  | _ => Except.error "str accessor on non-string values"

/-- Conversion applied to the `Nominal` column: `df['Nominal'].astype(int)`
(identity on integers, string parse, truncation toward zero on floats). -/
def nominalConv : Cell → Except String Cell
  | Cell.int n => Except.ok (Cell.int n)
  | Cell.str s =>
      match parseIntStr? s with
      | some n => Except.ok (Cell.int n)
      | none => Except.error "invalid literal for int"
  | Cell.rat q => Except.ok (Cell.int (q.num.tdiv (q.den : Int)))
  | Cell.date _ => Except.error "cannot convert date to int"

/-- The exact output column order of `get_cbr_rates` in both source files. -/
def canonicalColumns : List String :=
  ["Date", "CurrencyCode", "CurrencyName", "Nominal", "Value", "Rate"]

/-- The shared normalisation body of `get_cbr_rates` (lines 87-95 of
`currency_api.py` and 61-69 of `currency_api_date.py`): set the Date
column, convert Value and Nominal, derive Rate = Value / Nominal, rename
the provider fields and select the canonical columns in order. -/
def transform (d : Nat) (df : DataFrame) : Except String DataFrame := do
  let df1 := setConstCol df "Date" (Cell.date d)
  let df2 ← mapColE df1 "Value" valueConv
  let df3 ← mapColE df2 "Nominal" nominalConv
  let df4 ← addDivCol df3 "Rate" "Value" "Nominal"
  let df5 := renameCols df4 [("CharCode", "CurrencyCode"), ("Name", "CurrencyName")]
  selectCols df5 canonicalColumns

/-- The fallible body of `get_cbr_rates` in `currency_api.py`: the HTTP
request plus `pd.read_xml` outcome (`fetched`), then the normalisation,
for date `date_req` defaulting to today (`now`). -/
def get_cbr_rates_api_result (now : Nat) (date_req : Option Nat)
    (fetched : Except String DataFrame) : Except String DataFrame := do
  let raw ← fetched
  transform (date_req.getD now) raw

/-- `get_cbr_rates` of `currency_api.py`: the body wrapped in the source's
`try/except Exception`, returning `pd.DataFrame()` on any failure. -/
def get_cbr_rates_api (now : Nat) (date_req : Option Nat)
    (fetched : Except String DataFrame) : DataFrame :=
  match get_cbr_rates_api_result now date_req fetched with
  | Except.ok df => df
  | Except.error _ => DataFrame.emptyDF

/-- The fallible body of `get_cbr_rates` in `currency_api_date.py`. -/
def get_cbr_rates_date_result (date_req : Nat)
    (fetched : Except String DataFrame) : Except String DataFrame := do
  let raw ← fetched
  transform date_req raw

/-- `get_cbr_rates` of `currency_api_date.py`: body wrapped in
`try/except Exception`, empty DataFrame on any failure. -/
def get_cbr_rates_date (date_req : Nat)
    (fetched : Except String DataFrame) : DataFrame :=
  match get_cbr_rates_date_result date_req fetched with
  | Except.ok df => df
  | Except.error _ => DataFrame.emptyDF

/-- One `Valute` entry as `pd.read_xml` parses the provider's XML: the ID
attribute plus the NumCode, CharCode, Name, Nominal and Value children. -/
structure ProviderRow where
  idAttr : Cell
  numCode : Cell
  charCode : Cell
  name : Cell
  nominal : Cell
  value : Cell
  deriving DecidableEq

/-- The positional cell list of one provider row. -/
def ProviderRow.cells (r : ProviderRow) : List Cell :=
  [r.idAttr, r.numCode, r.charCode, r.name, r.nominal, r.value]

/-- Column names `pd.read_xml` produces on the provider's daily XML. -/
def providerColumns : List String :=
  ["ID", "NumCode", "CharCode", "Name", "Nominal", "Value"]

/-- A well-formed provider response as a DataFrame. -/
def providerDF (rs : List ProviderRow) : DataFrame :=
  ⟨providerColumns, rs.map ProviderRow.cells⟩

/-- The relational table `public.currency_rates`: a bag of persisted rows
(canonical column order, so the date sits at position 0). -/
abbrev Store := List (List Cell)

/-- Date of a persisted row (the `"Date"` column is at position 0). -/
def rowDate (r : List Cell) : Option Nat :=
  match r[0]? with
  | some (Cell.date d) => some d
  | _ => none

/-- The aggregate `SELECT MAX("Date") FROM public.currency_rates`:
`none` models SQL NULL on an empty table. -/
def maxDate : Store → Option Nat
  | [] => none
  | r :: rest =>
    match rowDate r, maxDate rest with
    | some d, some m => some (max d m)
    | some d, none => some d
    | none, m => m

/-- `get_last_loaded_date` of `currency_api.py` (lines 61-71): run the
max-aggregate query (whose success the oracle `queryOk` decides); on a
query error, or a NULL (falsy) aggregate, return today minus one day. -/
def get_last_loaded_date (queryOk : Bool) (s : Store) (today : Nat) : Nat :=
  if queryOk then
    match maxDate s with
    | some d => d
    | none => today - 1
  else today - 1

/-- Append-only write `df.to_sql(..., if_exists='append')`. -/
def sqlAppend (s : Store) (df : DataFrame) : Store := s ++ df.rows

/-- One line of the fallback CSV file: a header line or a data line. -/
inductive CsvLine where
  | header (cols : List String)
  | data (cells : List Cell)
  deriving DecidableEq

/-- State of the fallback file `currency_backup.csv`: whether the path
exists, and the lines written so far. -/
structure FileState where
  present : Bool
  lines : List CsvLine
  deriving DecidableEq

/-- `df.to_csv(path, mode='a', header=not path.exists())`: append the
header only when the file does not exist yet, then the data rows. -/
def csvAppend (fs : FileState) (df : DataFrame) : FileState :=
  ⟨true,
    fs.lines ++ (if fs.present then [] else [CsvLine.header df.columns]) ++
      df.rows.map CsvLine.data⟩

/-- Observable events of one run: log lines by severity, calls into the
per-date fetch, and calls into `save_data` (with the row count passed). -/
inductive Event where
  | logInfo (msg : String)
  | logWarn (msg : String)
  | logError (msg : String)
  | logCritical (msg : String)
  | fetchCall (d : Nat)
  | saveCall (nrows : Nat)
  deriving DecidableEq

/-- The fallible `df.to_sql` write attempt; the oracle `sqlOk` decides
whether the database accepts the batch. -/
def to_sql_attempt (sqlOk : Bool) (store : Store) (df : DataFrame) : Except String Store :=
  if sqlOk then Except.ok (sqlAppend store df) else Except.error "pg write error"

/-- The fallible `df.to_csv` write attempt. -/
def to_csv_attempt (csvOk : Bool) (fs : FileState) (df : DataFrame) : Except String FileState :=
  if csvOk then Except.ok (csvAppend fs df) else Except.error "csv write error"

/-- Result of one `save_data` call of `currency_api.py`. -/
structure SaveOut where
  success : Bool
  store : Store
  file : FileState
  events : List Event
  deriving DecidableEq

/-- `save_data` of `currency_api.py` (lines 101-129): with a live engine,
try the batched SQL append and catch any write error; without one, try the
CSV fallback append and catch any write error; report success as a Bool. -/
def save_data_api (df : DataFrame) (engine : Option Unit) (sqlOk csvOk : Bool)
    (store : Store) (fs : FileState) : SaveOut :=
  match engine with
  | some _ =>
    match to_sql_attempt sqlOk store df with
    | Except.ok s' => ⟨true, s', fs, [Event.saveCall df.rows.length, Event.logInfo "saved to PostgreSQL"]⟩
    | Except.error e => ⟨false, store, fs, [Event.saveCall df.rows.length, Event.logError e]⟩
  | none =>
    match to_csv_attempt csvOk fs df with
    | Except.ok fs' => ⟨true, store, fs', [Event.saveCall df.rows.length, Event.logInfo "saved to CSV"]⟩
    | Except.error e => ⟨false, store, fs, [Event.saveCall df.rows.length, Event.logError e]⟩

/-- `save_data` of `currency_api_date.py` (lines 75-91): try the SQL
append, catch any write error, report success as a Bool. -/
def save_data_date (df : DataFrame) (sqlOk : Bool) (store : Store) :
    Bool × Store × List Event :=
  match to_sql_attempt sqlOk store df with
  | Except.ok s' => (true, s', [Event.saveCall df.rows.length, Event.logInfo "saved"])
  | Except.error e => (false, store, [Event.saveCall df.rows.length, Event.logError e])

/-- `get_db_engine` of both sources: build the engine and validate it with
`SELECT 1`; any failure of the probe is caught and yields `None`. -/
def get_db_engine (connectOk : Bool) : Option Unit :=
  if connectOk then some () else none

/-- `pd.date_range(s, e)` at daily frequency, as day numbers: the ascending
inclusive range `[s, e]`, empty when `e < s`. -/
def date_range (s e : Nat) : List Nat :=
  (List.range (e + 1 - s)).map (fun i => s + i)

/-- `pd.concat(dfs, ignore_index=True)` on same-shaped frames. -/
def concatDFs (dfs : List DataFrame) : DataFrame :=
  ⟨((dfs.head?).map DataFrame.columns).getD [], (dfs.map DataFrame.rows).flatten⟩

/-- Outcome of one whole run: the event trace, final store and fallback
file state, the process exit code, and `some msg` when an exception
escaped the function uncaught. -/
structure RunOut where
  events : List Event
  store : Store
  file : FileState
  exitCode : Nat
  crashed : Option String
  deriving DecidableEq

/-- Line 138 of `currency_api.py`: the watermark the incremental run
resolves - the database answer with a live engine, else yesterday. -/
def resolvedWatermark (connectOk queryOk : Bool) (store0 : Store) (today : Nat) : Nat :=
  match get_db_engine connectOk with
  | some _ => get_last_loaded_date queryOk store0 today
  | none => today - 1

/-- Trace of the per-date fetch loop (lines 153-157 of `currency_api.py`):
every date is fetched; a non-empty result additionally logs receipt. -/
def fetchEvents (fetch : Nat → DataFrame) (dates : List Nat) : List Event :=
  (dates.map (fun d =>
    Event.fetchCall d ::
      (if (fetch d).rows.isEmpty then [] else [Event.logInfo "fetched"]))).flatten

/-- The accumulated `all_data` list: the non-empty per-date fetch results,
in date order. -/
def collectData (fetch : Nat → DataFrame) (dates : List Nat) : List DataFrame :=
  (dates.map fetch).filter (fun df => !df.rows.isEmpty)

/-- The body of `main` in `currency_api.py` (the code inside its top-level
`try`, lines 132-166): resolve the engine and watermark, short-circuit on
an empty range, fetch each planned date, short-circuit when nothing was
accumulated, concatenate (`concatOk` is the oracle for `pd.concat`
raising) and call `save_data` once on the combined batch. -/
def main_api_body (connectOk queryOk : Bool) (store0 : Store) (file0 : FileState)
    (today : Nat) (fetch : Nat → DataFrame) (sqlOk csvOk concatOk : Bool) : RunOut :=
  let engine := get_db_engine connectOk
  let e1 : List Event :=
    match engine with
    | some _ => []
    | none => [Event.logError "db unavailable, using fallback"]
  let last_date := resolvedWatermark connectOk queryOk store0 today
  let start := last_date + 1
  if today < start then
    ⟨e1 ++ [Event.logInfo "no new data"], store0, file0, 0, none⟩
  else
    let dates := date_range start today
    let e2 := e1 ++ [Event.logInfo "loading range"] ++ fetchEvents fetch dates
    let all_data := collectData fetch dates
    if all_data.isEmpty then
      ⟨e2 ++ [Event.logWarn "no new data to save"], store0, file0, 0, none⟩
    else if concatOk then
      let so := save_data_api (concatDFs all_data) engine sqlOk csvOk store0 file0
      ⟨e2 ++ so.events, so.store, so.file, 0, none⟩
    else
      ⟨e2, store0, file0, 0, some "concat failed"⟩

/-- `main` of `currency_api.py` (lines 131-169): the body wrapped in the
top-level `try/except Exception` that logs any escaped exception as
critical and returns normally. -/
def main_api (connectOk queryOk : Bool) (store0 : Store) (file0 : FileState)
    (today : Nat) (fetch : Nat → DataFrame) (sqlOk csvOk concatOk : Bool) : RunOut :=
  let b := main_api_body connectOk queryOk store0 file0 today fetch sqlOk csvOk concatOk
  match b.crashed with
  | none => b
  | some e => ⟨b.events ++ [Event.logCritical e], b.store, b.file, 0, none⟩

/-- Day number of a civil calendar date (days since 1970-01-01), for the
years this program handles. -/
def daysFromCivil (y m d : Nat) : Nat :=
  let y' := if m ≤ 2 then y - 1 else y
  let era := y' / 400
  let yoe := y' % 400
  let mp := if 2 < m then m - 3 else m + 9
  let doy := (153 * mp + 2) / 5 + d - 1
  let doe := yoe * 365 + yoe / 4 - yoe / 100 + doy
  era * 146097 + doe - 719468

/-- The hard-coded backfill start `datetime(2000, 1, 2)`. -/
def backfillStart : Nat := daysFromCivil 2000 1 2

/-- The hard-coded backfill end `datetime(2015, 6, 24)`. -/
def backfillEnd : Nat := daysFromCivil 2015 6 24

/-- One iteration of the backfill loop (lines 107-116 of
`currency_api_date.py`): fetch the date; if empty log a warning, else call
`save_data` and log a warning when it reports failure; finally sleep
(`sleepOk` is the oracle for the sleep being interrupted).  A crashed
accumulator is passed through unchanged: the Python loop is not entered
again after an exception. -/
def backfill_step (fetch : Nat → DataFrame) (sqlOk sleepOk : Nat → Bool)
    (acc : List Event × Store × Option String) (d : Nat) :
    List Event × Store × Option String :=
  match acc with
  | (evs, store, some e) => (evs, store, some e)
  | (evs, store, none) =>
    let df := fetch d
    let (evs1, store1) :=
      if df.rows.isEmpty then
        (evs ++ [Event.fetchCall d, Event.logWarn "no data for date"], store)
      else
        match save_data_date df (sqlOk d) store with
        | (true, store', sevs) => (evs ++ [Event.fetchCall d] ++ sevs, store')
        | (false, store', sevs) =>
            (evs ++ [Event.fetchCall d] ++ sevs ++ [Event.logWarn "skipping date"], store')
    if sleepOk d then (evs1, store1, none) else (evs1, store1, some "interrupted during sleep")

/-- The whole backfill loop of `currency_api_date.py`: fold the per-date
body over the fixed historical range, starting from the initial log and
store state. -/
def backfill_run (fetch : Nat → DataFrame) (sqlOk sleepOk : Nat → Bool) (store0 : Store) :
    List Event × Store × Option String :=
  (date_range backfillStart backfillEnd).foldl (backfill_step fetch sqlOk sleepOk)
    ([Event.logInfo "starting backfill"], store0, none)

/-- `main` of `currency_api_date.py` (lines 93-118): exit with code 1 when
no engine could be validated; otherwise iterate the fixed historical range
persisting per date.  There is no `try/except` around this function in the
source, so a crash inside the loop leaves `crashed` set. -/
def main_date (connectOk : Bool) (store0 : Store) (file0 : FileState)
    (fetch : Nat → DataFrame) (sqlOk sleepOk : Nat → Bool) : RunOut :=
  match get_db_engine connectOk with
  | none => ⟨[Event.logError "connection error"], store0, file0, 1, none⟩
  | some _ =>
    match backfill_run fetch sqlOk sleepOk store0 with
    | (evs, store1, none) => ⟨evs ++ [Event.logInfo "backfill finished"], store1, file0, 0, none⟩
    | (evs, store1, some e) => ⟨evs, store1, file0, 0, some e⟩

/-- Recogniser for CSV header lines. -/
def isHeaderLine : CsvLine → Bool
  | CsvLine.header _ => true
  | CsvLine.data _ => false

/-- Number of header lines in a CSV file. -/
def countHeaders (ls : List CsvLine) : Nat := ls.countP isHeaderLine

end Currency

namespace Currency

theorem except_bind_ok {α β : Type} {x : Except String α} {f : α → Except String β} {c : β}
    (h : (x >>= f) = Except.ok c) : ∃ b, x = Except.ok b ∧ f b = Except.ok c := by
  cases x with
  | ok b => exact ⟨b, rfl, h⟩
  | error e => simp [Bind.bind, Except.bind] at h

theorem mapME_ok_iff {α β : Type} {f : α → Except String β} :
    ∀ {l : List α} {l' : List β},
      mapME f l = Except.ok l' ↔ List.Forall₂ (fun a b => f a = Except.ok b) l l' := by
  intro l
  induction l with
  | nil =>
    intro l'
    constructor
    · intro h
      simp only [mapME] at h
      cases h
      exact List.Forall₂.nil
    · intro h
      cases h
      rfl
  | cons a as ih =>
    intro l'
    constructor
    · intro h
      simp only [mapME] at h
      obtain ⟨b, hb, h2⟩ := except_bind_ok h
      obtain ⟨bs, hbs, h3⟩ := except_bind_ok h2
      cases h3
      exact List.Forall₂.cons hb (ih.mp hbs)
    · intro h
      cases h with
      | cons hab htail =>
        simp only [mapME, hab, ih.mpr htail]
        rfl

theorem forall₂_comp {α β γ : Type} {R : α → β → Prop} {S : β → γ → Prop} :
    ∀ {l₁ : List α} {l₂ : List β} {l₃ : List γ},
      List.Forall₂ R l₁ l₂ → List.Forall₂ S l₂ l₃ →
      List.Forall₂ (fun a c => ∃ b, R a b ∧ S b c) l₁ l₃ := by
  intro l₁ l₂ l₃ h1
  induction h1 generalizing l₃ with
  | nil =>
    intro h2
    cases h2
    exact List.Forall₂.nil
  | cons hab _ ih =>
    intro h2
    cases h2 with
    | cons hbc h' => exact List.Forall₂.cons ⟨_, hab, hbc⟩ (ih h')

theorem maxDate_eq_none {s : Store} (h : maxDate s = none) :
    ∀ r ∈ s, rowDate r = none := by
  induction s with
  | nil => intro r hr; cases hr
  | cons r0 rest ih =>
    intro r hr
    rcases List.mem_cons.mp hr with h0 | hmem
    · subst h0
      cases hd : rowDate r with
      | none => rfl
      | some d =>
        cases hrest : maxDate rest with
        | none => simp [maxDate, hd, hrest] at h
        | some m => simp [maxDate, hd, hrest] at h
    · refine ih ?_ r hmem
      cases hd : rowDate r0 with
      | none => simpa [maxDate, hd] using h
      | some d =>
        cases hrest : maxDate rest with
        | none => simp [maxDate, hd, hrest] at h
        | some m => simp [maxDate, hd, hrest] at h

theorem le_maxDate_of_mem {s : Store} {r : List Cell} {d : Nat}
    (hr : r ∈ s) (hd : rowDate r = some d) :
    ∃ m, maxDate s = some m ∧ d ≤ m := by
  induction s with
  | nil => cases hr
  | cons r0 rest ih =>
    rcases List.mem_cons.mp hr with h0 | hmem
    · subst h0
      cases hrest : maxDate rest with
      | none => exact ⟨d, by simp [maxDate, hd, hrest], le_refl d⟩
      | some m => exact ⟨max d m, by simp [maxDate, hd, hrest], le_max_left d m⟩
    · obtain ⟨m, hm, hdm⟩ := ih hmem
      cases h0 : rowDate r0 with
      | none => exact ⟨m, by simp [maxDate, h0, hm], hdm⟩
      | some d0 =>
        exact ⟨max d0 m, by simp [maxDate, h0, hm], le_trans hdm (le_max_right d0 m)⟩

theorem maxDate_spec {s : Store} {m : Nat} (h : maxDate s = some m) :
    (∃ r ∈ s, rowDate r = some m) ∧ ∀ r ∈ s, ∀ d, rowDate r = some d → d ≤ m := by
  induction s generalizing m with
  | nil => simp [maxDate] at h
  | cons r0 rest ih =>
    cases h0 : rowDate r0 with
    | none =>
      have h' : maxDate rest = some m := by
        cases hrest : maxDate rest with
        | none => simp [maxDate, h0, hrest] at h
        | some m' => simp [maxDate, h0, hrest] at h; simp [hrest, h]
      obtain ⟨⟨r, hrmem, hrd⟩, hub⟩ := ih h'
      refine ⟨⟨r, List.mem_cons_of_mem _ hrmem, hrd⟩, ?_⟩
      intro r' hr' d hd
      rcases List.mem_cons.mp hr' with h1 | hmem
      · subst h1; rw [h0] at hd; cases hd
      · exact hub r' hmem d hd
    | some d0 =>
      cases hrest : maxDate rest with
      | none =>
        have hm : d0 = m := by simpa [maxDate, h0, hrest] using h
        subst hm
        refine ⟨⟨r0, List.mem_cons_self r0 rest, h0⟩, ?_⟩
        intro r' hr' d hd
        rcases List.mem_cons.mp hr' with h1 | hmem
        · subst h1; rw [h0] at hd; cases hd; exact le_refl _
        · rw [maxDate_eq_none hrest r' hmem] at hd; cases hd
      | some mr =>
        have hm : max d0 mr = m := by simpa [maxDate, h0, hrest] using h
        obtain ⟨⟨r, hrmem, hrd⟩, hub⟩ := ih hrest
        subst hm
        constructor
        · rcases le_total mr d0 with hle | hle
          · exact ⟨r0, List.mem_cons_self r0 rest, by rw [h0, max_eq_left hle]⟩
          · exact ⟨r, List.mem_cons_of_mem _ hrmem, by rw [hrd, max_eq_right hle]⟩
        · intro r' hr' d hd
          rcases List.mem_cons.mp hr' with h1 | hmem
          · subst h1; rw [h0] at hd; cases hd; exact le_max_left _ _
          · exact le_trans (hub r' hmem d hd) (le_max_right _ _)

/-- C2: in both the incremental and the backfill variants, whenever the
fallible body of `get_cbr_rates` (request, HTTP status, XML parse or
numeric conversion) fails with any error, the function catches it and
returns the empty DataFrame instead of propagating the exception. -/
theorem spec_C2 (fetched : Except String DataFrame) (now d : Nat)
    (dreq : Option Nat) (e e' : String) :
    (get_cbr_rates_api_result now dreq fetched = Except.error e →
      get_cbr_rates_api now dreq fetched = DataFrame.emptyDF) ∧
    (get_cbr_rates_date_result d fetched = Except.error e' →
      get_cbr_rates_date d fetched = DataFrame.emptyDF) := by
  constructor
  · intro h; simp [get_cbr_rates_api, h]
  · intro h; simp [get_cbr_rates_date, h]

theorem spec_C2_witness :
    (get_cbr_rates_api_result 7 none (Except.error "connection timeout") =
        Except.error "connection timeout" ∧
      get_cbr_rates_api 7 none (Except.error "connection timeout") = DataFrame.emptyDF) ∧
    (get_cbr_rates_date_result 7 (Except.error "connection timeout") =
        Except.error "connection timeout" ∧
      get_cbr_rates_date 7 (Except.error "connection timeout") = DataFrame.emptyDF) :=
  ⟨⟨rfl, (spec_C2 (Except.error "connection timeout") 7 7 none "connection timeout"
      "connection timeout").1 rfl⟩,
    ⟨rfl, (spec_C2 (Except.error "connection timeout") 7 7 none "connection timeout"
      "connection timeout").2 rfl⟩⟩

/-- C3: `save_data` catches every write error — to the relational store in
either variant, and to the fallback CSV file in the incremental variant —
and reports `success = false` to its caller instead of propagating the
exception (the functions are total: no error value escapes them). -/
theorem spec_C3 (df : DataFrame) (sqlOk csvOk : Bool) (store : Store)
    (fs : FileState) (e e' e'' : String) :
    (to_sql_attempt sqlOk store df = Except.error e →
      save_data_api df (some ()) sqlOk csvOk store fs =
        ⟨false, store, fs, [Event.saveCall df.rows.length, Event.logError e]⟩) ∧
    (to_csv_attempt csvOk fs df = Except.error e' →
      save_data_api df none sqlOk csvOk store fs =
        ⟨false, store, fs, [Event.saveCall df.rows.length, Event.logError e']⟩) ∧
    (to_sql_attempt sqlOk store df = Except.error e'' →
      save_data_date df sqlOk store =
        (false, store, [Event.saveCall df.rows.length, Event.logError e''])) := by
  refine ⟨?_, ?_, ?_⟩
  · intro h; simp [save_data_api, h]
  · intro h; simp [save_data_api, h]
  · intro h; simp [save_data_date, h]

theorem spec_C3_witness :
    (to_sql_attempt false [] DataFrame.emptyDF = Except.error "pg write error" ∧
      to_csv_attempt false ⟨false, []⟩ DataFrame.emptyDF = Except.error "csv write error") ∧
    (save_data_api DataFrame.emptyDF (some ()) false false [] ⟨false, []⟩).success = false ∧
    (save_data_api DataFrame.emptyDF none false false [] ⟨false, []⟩).success = false ∧
    (save_data_date DataFrame.emptyDF false []).1 = false := by
  have h := spec_C3 DataFrame.emptyDF false false [] ⟨false, []⟩
    "pg write error" "csv write error" "pg write error"
  refine ⟨⟨rfl, rfl⟩, ?_, ?_, ?_⟩
  · rw [h.1 rfl]
  · rw [h.2.1 rfl]
  · rw [h.2.2 rfl]

/-- C4: `get_last_loaded_date` returns the maximum persisted date computed
by the max-aggregate query over the date column; when the query errors, or
the store holds no rows so the aggregate is NULL, it returns today minus
one day instead. -/
theorem spec_C4 (s0 s : Store) (today d : Nat) :
    (get_last_loaded_date false s today = today - 1) ∧
    (maxDate s0 = none → get_last_loaded_date true s0 today = today - 1) ∧
    (maxDate s = some d →
      get_last_loaded_date true s today = d ∧
      (∀ r ∈ s, ∀ d', rowDate r = some d' → d' ≤ d) ∧
      (∃ r ∈ s, rowDate r = some d)) := by
  refine ⟨rfl, ?_, ?_⟩
  · intro h; simp [get_last_loaded_date, h]
  · intro h
    obtain ⟨hex, hub⟩ := maxDate_spec h
    exact ⟨by simp [get_last_loaded_date, h], hub, hex⟩

theorem spec_C4_witness :
    (maxDate ([] : Store) = none ∧ maxDate [[Cell.date 5]] = some 5) ∧
    get_last_loaded_date false [[Cell.date 5]] 9 = 8 ∧
    get_last_loaded_date true [] 9 = 8 ∧
    get_last_loaded_date true [[Cell.date 5]] 9 = 5 := by
  have h := spec_C4 [] [[Cell.date 5]] 9 5
  exact ⟨⟨rfl, rfl⟩, h.1, h.2.1 rfl, (h.2.2 rfl).1⟩

end Currency

namespace Currency

/-- C9: monotonic watermark progress.  If a run successfully persists a
batch containing a row dated `D` into the append-only store, then after
any further appends the watermark a later run resolves — the maximum over
the stored date column — is at least `D`: it is recomputed from the rows,
so it never regresses. -/
theorem spec_C9 (store0 : Store) (df : DataFrame) (extra : Store) (today D : Nat)
    (r : List Cell) (hr : r ∈ df.rows) (hd : rowDate r = some D) :
    D ≤ get_last_loaded_date true (sqlAppend store0 df ++ extra) today := by
  have hmem : r ∈ sqlAppend store0 df ++ extra :=
    List.mem_append_left extra (List.mem_append_right store0 hr)
  obtain ⟨m, hm, hDm⟩ := le_maxDate_of_mem hmem hd
  simpa [get_last_loaded_date, hm] using hDm

theorem spec_C9_witness :
    ([Cell.date 3] ∈ (DataFrame.mk canonicalColumns [[Cell.date 3]]).rows ∧
      rowDate [Cell.date 3] = some 3) ∧
    3 ≤ get_last_loaded_date true
      (sqlAppend [] (DataFrame.mk canonicalColumns [[Cell.date 3]]) ++ [[Cell.date 7]]) 100 :=
  ⟨⟨List.mem_cons_self _ _, rfl⟩,
    spec_C9 [] (DataFrame.mk canonicalColumns [[Cell.date 3]]) [[Cell.date 7]] 100 3
      [Cell.date 3] (List.mem_cons_self _ _) rfl⟩

theorem csvAppend_absent {fs : FileState} (df : DataFrame) (h : fs.present = false) :
    csvAppend fs df =
      ⟨true, fs.lines ++ [CsvLine.header df.columns] ++ df.rows.map CsvLine.data⟩ := by
  simp [csvAppend, h]

theorem csvAppend_present {fs : FileState} (df : DataFrame) (h : fs.present = true) :
    csvAppend fs df = ⟨true, fs.lines ++ df.rows.map CsvLine.data⟩ := by
  simp [csvAppend, h]

theorem countHeaders_data (rows : List (List Cell)) :
    countHeaders (rows.map CsvLine.data) = 0 := by
  induction rows with
  | nil => rfl
  | cons r rs ih =>
    simp only [List.map_cons, countHeaders, List.countP_cons] at *
    simp [ih, isHeaderLine]

theorem foldl_csv_present :
    ∀ (dfs : List DataFrame) (fs : FileState), fs.present = true →
      ∃ extra, dfs.foldl csvAppend fs = ⟨true, fs.lines ++ extra⟩ ∧ countHeaders extra = 0 := by
  intro dfs
  induction dfs with
  | nil =>
    intro fs h
    refine ⟨[], ?_, rfl⟩
    cases fs with
    | mk p l => simp at h; simp [h]
  | cons d ds ih =>
    intro fs h
    obtain ⟨extra, he, hc⟩ := ih ⟨true, fs.lines ++ d.rows.map CsvLine.data⟩ rfl
    refine ⟨d.rows.map CsvLine.data ++ extra, ?_, ?_⟩
    · rw [List.foldl_cons, csvAppend_present d h]
      simpa [List.append_assoc] using he
    · have hd := countHeaders_data d.rows
      simp only [countHeaders, List.countP_append] at hd hc ⊢
      omega

/-- C7: with no live store handle, `save_data` appends the batch to the
fallback CSV file; the header row is written exactly when the file does
not exist yet, so over any sequence of fallback writes starting from a
missing file the header appears exactly once, as the very first line. -/
theorem spec_C7 (df : DataFrame) (sqlOk : Bool) (store : Store) (fs0 fs1 : FileState)
    (dfs : List DataFrame) (d0 : DataFrame) (rest : List DataFrame)
    (hp0 : fs0.present = false) (hp1 : fs1.present = true) (hdfs : dfs = d0 :: rest) :
    (save_data_api df none sqlOk true store fs0).file = csvAppend fs0 df ∧
    csvAppend fs0 df =
      ⟨true, fs0.lines ++ [CsvLine.header df.columns] ++ df.rows.map CsvLine.data⟩ ∧
    csvAppend fs1 df = ⟨true, fs1.lines ++ df.rows.map CsvLine.data⟩ ∧
    countHeaders (dfs.foldl csvAppend ⟨false, []⟩).lines = 1 ∧
    (dfs.foldl csvAppend ⟨false, []⟩).lines.head? = some (CsvLine.header d0.columns) := by
  subst hdfs
  have h1 : csvAppend ⟨false, []⟩ d0 =
      ⟨true, CsvLine.header d0.columns :: d0.rows.map CsvLine.data⟩ := by
    simpa using @csvAppend_absent (FileState.mk false []) d0 rfl
  obtain ⟨extra, he, hc⟩ :=
    foldl_csv_present rest ⟨true, CsvLine.header d0.columns :: d0.rows.map CsvLine.data⟩ rfl
  refine ⟨by simp [save_data_api, to_csv_attempt], csvAppend_absent df hp0,
    csvAppend_present df hp1, ?_, ?_⟩
  · rw [List.foldl_cons, h1, he]
    show countHeaders ((CsvLine.header d0.columns :: d0.rows.map CsvLine.data) ++ extra) = 1
    have hd := countHeaders_data d0.rows
    simp only [countHeaders, List.countP_append, List.countP_cons] at hd hc ⊢
    simp [isHeaderLine, hd, hc]
  · rw [List.foldl_cons, h1, he]
    rfl

theorem spec_C7_witness :
    ((FileState.mk false []).present = false ∧ (FileState.mk true []).present = true) ∧
    countHeaders
      (([DataFrame.mk canonicalColumns [[Cell.date 1]],
          DataFrame.mk canonicalColumns [[Cell.date 2]]].foldl csvAppend ⟨false, []⟩).lines) = 1 ∧
    (([DataFrame.mk canonicalColumns [[Cell.date 1]],
        DataFrame.mk canonicalColumns [[Cell.date 2]]].foldl csvAppend ⟨false, []⟩).lines.head? =
      some (CsvLine.header canonicalColumns)) := by
  have h := spec_C7 (DataFrame.mk canonicalColumns [[Cell.date 1]]) true [] ⟨false, []⟩
    ⟨true, []⟩
    [DataFrame.mk canonicalColumns [[Cell.date 1]], DataFrame.mk canonicalColumns [[Cell.date 2]]]
    (DataFrame.mk canonicalColumns [[Cell.date 1]])
    [DataFrame.mk canonicalColumns [[Cell.date 2]]] rfl rfl rfl
  exact ⟨⟨rfl, rfl⟩, h.2.2.2.1, h.2.2.2.2⟩

theorem date_range_length (s e : Nat) : (date_range s e).length = e + 1 - s := by
  simp [date_range]

theorem date_range_get (s e i : Nat) (h : i < (date_range s e).length) :
    (date_range s e).get ⟨i, h⟩ = s + i := by
  simp [date_range]

theorem date_range_empty {s e : Nat} (h : e < s) : date_range s e = [] := by
  have h0 : e + 1 - s = 0 := by omega
  simp [date_range, h0]

theorem date_range_sorted (s e : Nat) : (date_range s e).Pairwise (· < ·) := by
  rw [date_range, List.pairwise_map]
  exact (List.pairwise_lt_range (e + 1 - s)).imp (fun h => by omega)

theorem date_range_mem {s e d : Nat} : d ∈ date_range s e ↔ s ≤ d ∧ d ≤ e := by
  simp only [date_range, List.mem_map, List.mem_range]
  constructor
  · rintro ⟨i, hi, rfl⟩
    omega
  · intro ⟨h1, h2⟩
    exact ⟨d - s, by omega, by omega⟩

theorem date_range_cons {s e : Nat} (h : s ≤ e) :
    date_range s e = s :: date_range (s + 1) e := by
  have h1 : e + 1 - s = (e - s) + 1 := by omega
  have h2 : e + 1 - (s + 1) = e - s := by omega
  rw [date_range, h1, List.range_succ_eq_map, date_range, h2]
  simp only [List.map_cons, Nat.add_zero, List.map_map]
  refine congrArg (List.cons s) (List.map_congr_left ?_)
  intro a _
  simp [Function.comp]
  omega

/-- C5: the incremental planner enumerates `watermark + 1` through `today`
inclusive, ascending by day; and whenever `start > today` the range is
empty and `main` short-circuits with an informational log, leaving the
store and the fallback file untouched and raising no error. -/
theorem spec_C5 (connectOk queryOk : Bool) (store0 : Store) (file0 : FileState)
    (today : Nat) (fetch : Nat → DataFrame) (sqlOk csvOk concatOk : Bool) (s e : Nat)
    (hempty : today < resolvedWatermark connectOk queryOk store0 today + 1) :
    ((date_range s e).length = e + 1 - s ∧
      (∀ i (hi : i < (date_range s e).length), (date_range s e).get ⟨i, hi⟩ = s + i) ∧
      (date_range s e).Pairwise (· < ·) ∧
      (∀ d, d ∈ date_range s e ↔ s ≤ d ∧ d ≤ e)) ∧
    date_range (resolvedWatermark connectOk queryOk store0 today + 1) today = [] ∧
    main_api connectOk queryOk store0 file0 today fetch sqlOk csvOk concatOk =
      ⟨(match get_db_engine connectOk with
          | some _ => []
          | none => [Event.logError "db unavailable, using fallback"]) ++
        [Event.logInfo "no new data"], store0, file0, 0, none⟩ := by
  refine ⟨⟨date_range_length s e, fun i hi => date_range_get s e i hi,
    date_range_sorted s e, fun d => date_range_mem⟩, date_range_empty (by omega), ?_⟩
  simp [main_api, main_api_body, hempty]

theorem spec_C5_witness :
    (resolvedWatermark true true [[Cell.date 5]] 5 = 5 ∧ 5 < 5 + 1) ∧
    date_range 6 5 = [] ∧
    main_api true true [[Cell.date 5]] ⟨false, []⟩ 5 (fun _ => DataFrame.emptyDF)
        true true true =
      ⟨[Event.logInfo "no new data"], [[Cell.date 5]], ⟨false, []⟩, 0, none⟩ := by
  have h := spec_C5 true true [[Cell.date 5]] ⟨false, []⟩ 5 (fun _ => DataFrame.emptyDF)
    true true true 2 4 (by decide)
  exact ⟨⟨rfl, by decide⟩, h.2.1, h.2.2⟩

theorem collectData_nil {fetch : Nat → DataFrame} {dates : List Nat}
    (h : ∀ d ∈ dates, (fetch d).rows = []) : collectData fetch dates = [] := by
  rw [collectData, List.filter_eq_nil_iff]
  intro df hdf
  obtain ⟨d, hd, rfl⟩ := List.mem_map.mp hdf
  simp [h d hd]

theorem fetchEvents_no_save {fetch : Nat → DataFrame} {dates : List Nat} (n : Nat) :
    Event.saveCall n ∉ fetchEvents fetch dates := by
  intro h
  rw [fetchEvents, List.mem_flatten] at h
  obtain ⟨l, hl, hmem⟩ := h
  obtain ⟨d, _, rfl⟩ := List.mem_map.mp hl
  rcases List.mem_cons.mp hmem with h1 | h2
  · cases h1
  · by_cases hE : (fetch d).rows.isEmpty <;> simp [hE] at h2

/-- C10: when the planned incremental range is non-empty but every
per-date fetch comes back empty, `main` returns right after logging a
warning: `save_data` is never invoked, and neither the relational store
nor the fallback CSV file is touched. -/
theorem spec_C10 (connectOk queryOk : Bool) (store0 : Store) (file0 : FileState)
    (today : Nat) (fetch : Nat → DataFrame) (sqlOk csvOk concatOk : Bool)
    (hrange : resolvedWatermark connectOk queryOk store0 today + 1 ≤ today)
    (hempty : ∀ d ∈ date_range (resolvedWatermark connectOk queryOk store0 today + 1) today,
      (fetch d).rows = []) :
    (main_api connectOk queryOk store0 file0 today fetch sqlOk csvOk concatOk).store = store0 ∧
    (main_api connectOk queryOk store0 file0 today fetch sqlOk csvOk concatOk).file = file0 ∧
    (∀ n, Event.saveCall n ∉
      (main_api connectOk queryOk store0 file0 today fetch sqlOk csvOk concatOk).events) ∧
    (main_api connectOk queryOk store0 file0 today fetch sqlOk csvOk concatOk).events.getLast? =
      some (Event.logWarn "no new data to save") ∧
    (main_api connectOk queryOk store0 file0 today fetch sqlOk csvOk concatOk).crashed = none ∧
    (main_api connectOk queryOk store0 file0 today fetch sqlOk csvOk concatOk).exitCode = 0 := by
  have hw : ¬ today < resolvedWatermark connectOk queryOk store0 today + 1 := by omega
  have hb : main_api connectOk queryOk store0 file0 today fetch sqlOk csvOk concatOk =
      ⟨(match get_db_engine connectOk with
          | some _ => []
          | none => [Event.logError "db unavailable, using fallback"]) ++
          [Event.logInfo "loading range"] ++
          fetchEvents fetch
            (date_range (resolvedWatermark connectOk queryOk store0 today + 1) today) ++
          [Event.logWarn "no new data to save"], store0, file0, 0, none⟩ := by
    simp [main_api, main_api_body, hw, collectData_nil hempty]
  rw [hb]
  refine ⟨rfl, rfl, ?_, ?_, rfl, rfl⟩
  · intro n hmem
    simp only [List.mem_append, List.mem_singleton] at hmem
    rcases hmem with ((h1 | h2) | h3) | h4
    · cases connectOk <;> simp [get_db_engine] at h1
    · simp at h2
    · exact fetchEvents_no_save n h3
    · cases h4
  · exact List.getLast?_concat _

theorem spec_C10_witness :
    (resolvedWatermark false true [] 1 + 1 ≤ 1 ∧
      (∀ d ∈ date_range (resolvedWatermark false true [] 1 + 1) 1,
        ((fun _ => DataFrame.emptyDF) d : DataFrame).rows = [])) ∧
    (main_api false true [] ⟨false, []⟩ 1 (fun _ => DataFrame.emptyDF) true true true).store
        = [] ∧
    (main_api false true [] ⟨false, []⟩ 1 (fun _ => DataFrame.emptyDF) true true true).file
        = ⟨false, []⟩ ∧
    (∀ n, Event.saveCall n ∉
      (main_api false true [] ⟨false, []⟩ 1 (fun _ => DataFrame.emptyDF) true true true).events) ∧
    (main_api false true [] ⟨false, []⟩ 1
        (fun _ => DataFrame.emptyDF) true true true).events.getLast? =
      some (Event.logWarn "no new data to save") := by
  have h := spec_C10 false true [] ⟨false, []⟩ 1 (fun _ => DataFrame.emptyDF) true true true
    (by decide) (by intro d _; rfl)
  exact ⟨⟨by decide, by intro d _; rfl⟩, h.1, h.2.1, h.2.2.1, h.2.2.2.1⟩

end Currency

namespace Currency

theorem mem_collectData {fetch : Nat → DataFrame} {dates : List Nat} {d : Nat}
    (hd : d ∈ dates) (hne : (fetch d).rows ≠ []) :
    fetch d ∈ collectData fetch dates := by
  rw [collectData, List.mem_filter]
  exact ⟨List.mem_map_of_mem fetch hd, by simp [hne]⟩

theorem not_mem_collectData {fetch : Nat → DataFrame} {dates : List Nat} {d : Nat}
    (he : (fetch d).rows = []) : fetch d ∉ collectData fetch dates := by
  intro h
  rw [collectData, List.mem_filter] at h
  simp [he] at h

theorem rows_sublist_concatDFs {dfs : List DataFrame} {df : DataFrame} (h : df ∈ dfs) :
    df.rows.Sublist (concatDFs dfs).rows :=
  List.sublist_flatten_of_mem (List.mem_map_of_mem DataFrame.rows h)

theorem fetchCall_mem {fetch : Nat → DataFrame} {dates : List Nat} {d : Nat}
    (hd : d ∈ dates) : Event.fetchCall d ∈ fetchEvents fetch dates := by
  rw [fetchEvents, List.mem_flatten]
  exact ⟨Event.fetchCall d ::
      (if (fetch d).rows.isEmpty then [] else [Event.logInfo "fetched"]),
    List.mem_map_of_mem _ hd, List.mem_cons_self _ _⟩

theorem saveCall_mem_save_data_api (df : DataFrame) (engine : Option Unit)
    (sqlOk csvOk : Bool) (store : Store) (fs : FileState) :
    Event.saveCall df.rows.length ∈ (save_data_api df engine sqlOk csvOk store fs).events := by
  cases engine <;> cases sqlOk <;> cases csvOk <;>
    simp [save_data_api, to_sql_attempt, to_csv_attempt]

theorem backfill_step_crashed (fetch : Nat → DataFrame) (sqlOk sleepOk : Nat → Bool)
    (evs : List Event) (store : Store) (e : String) (d : Nat) :
    backfill_step fetch sqlOk sleepOk (evs, store, some e) d = (evs, store, some e) := rfl

theorem backfill_fold_crashed (fetch : Nat → DataFrame) (sqlOk sleepOk : Nat → Bool) :
    ∀ (l : List Nat) (evs : List Event) (store : Store) (e : String),
      l.foldl (backfill_step fetch sqlOk sleepOk) (evs, store, some e) = (evs, store, some e) := by
  intro l
  induction l with
  | nil => intro evs store e; rfl
  | cons d ds ih =>
    intro evs store e
    rw [List.foldl_cons, backfill_step_crashed]
    exact ih evs store e

theorem backfill_step_eq (fetch : Nat → DataFrame) (sqlOk sleepOk : Nat → Bool)
    (evs : List Event) (store : Store) (d : Nat) :
    ∃ tl store',
      backfill_step fetch sqlOk sleepOk (evs, store, none) d =
        (evs ++ tl, store', if sleepOk d then none else some "interrupted during sleep") ∧
      store.Sublist store' ∧
      Event.fetchCall d ∈ tl ∧
      (∀ m, Event.logCritical m ∉ tl) ∧
      (¬(fetch d).rows.isEmpty = true → sqlOk d = true → store' = store ++ (fetch d).rows) := by
  by_cases hE : (fetch d).rows.isEmpty
  · refine ⟨[Event.fetchCall d, Event.logWarn "no data for date"], store, ?_,
      List.Sublist.refl _, by simp, by intro m; simp, fun h => absurd hE h⟩
    by_cases hSl : sleepOk d <;> simp [backfill_step, hE, hSl]
  · by_cases hS : sqlOk d
    · refine ⟨[Event.fetchCall d, Event.saveCall (fetch d).rows.length, Event.logInfo "saved"],
        store ++ (fetch d).rows, ?_, List.sublist_append_left _ _, by simp, by intro m; simp,
        fun _ _ => rfl⟩
      by_cases hSl : sleepOk d <;>
        simp [backfill_step, hE, hS, hSl, save_data_date, to_sql_attempt, sqlAppend]
    · refine ⟨[Event.fetchCall d, Event.saveCall (fetch d).rows.length,
        Event.logError "pg write error", Event.logWarn "skipping date"], store, ?_,
        List.Sublist.refl _, by simp, by intro m; simp, fun _ hs => absurd hs hS⟩
      by_cases hSl : sleepOk d <;>
        simp [backfill_step, hE, hS, hSl, save_data_date, to_sql_attempt]

theorem backfill_fold_eq (fetch : Nat → DataFrame) (sqlOk : Nat → Bool) :
    ∀ (l : List Nat) (evs : List Event) (store : Store),
      ∃ tl store',
        l.foldl (backfill_step fetch sqlOk (fun _ => true)) (evs, store, none) =
          (evs ++ tl, store', none) ∧ store.Sublist store' := by
  intro l
  induction l with
  | nil => intro evs store; exact ⟨[], store, by simp, List.Sublist.refl _⟩
  | cons d ds ih =>
    intro evs store
    obtain ⟨tl, store1, hstep, hsub1, -, -, -⟩ :=
      backfill_step_eq fetch sqlOk (fun _ => true) evs store d
    have hstep' : backfill_step fetch sqlOk (fun _ => true) (evs, store, none) d =
        (evs ++ tl, store1, none) := hstep.trans rfl
    obtain ⟨tl2, store', hfold, hsub2⟩ := ih (evs ++ tl) store1
    refine ⟨tl ++ tl2, store', ?_, hsub1.trans hsub2⟩
    rw [List.foldl_cons, hstep', hfold, List.append_assoc]

theorem backfill_fold_fetchCall (fetch : Nat → DataFrame) (sqlOk : Nat → Bool) :
    ∀ (l : List Nat) (evs : List Event) (store : Store) (d : Nat), d ∈ l →
      Event.fetchCall d ∈
        (l.foldl (backfill_step fetch sqlOk (fun _ => true)) (evs, store, none)).1 := by
  intro l
  induction l with
  | nil => intro evs store d hd; cases hd
  | cons d0 ds ih =>
    intro evs store d hd
    obtain ⟨tl, store1, hstep, -, hfc, -, -⟩ :=
      backfill_step_eq fetch sqlOk (fun _ => true) evs store d0
    have hstep' : backfill_step fetch sqlOk (fun _ => true) (evs, store, none) d0 =
        (evs ++ tl, store1, none) := hstep.trans rfl
    rcases List.mem_cons.mp hd with h1 | hmem
    · subst h1
      obtain ⟨tl2, store', hfold, -⟩ := backfill_fold_eq fetch sqlOk ds (evs ++ tl) store1
      rw [List.foldl_cons, hstep', hfold]
      exact List.mem_append_left _ (List.mem_append_right _ hfc)
    · rw [List.foldl_cons, hstep']
      exact ih (evs ++ tl) store1 d hmem

theorem backfill_fold_mem (fetch : Nat → DataFrame) (sqlOk : Nat → Bool) :
    ∀ (l : List Nat) (evs : List Event) (store : Store) (d : Nat),
      d ∈ l → ¬(fetch d).rows.isEmpty = true → sqlOk d = true →
      (fetch d).rows.Sublist
        (l.foldl (backfill_step fetch sqlOk (fun _ => true)) (evs, store, none)).2.1 := by
  intro l
  induction l with
  | nil => intro evs store d hd; cases hd
  | cons d0 ds ih =>
    intro evs store d hd hne hs
    rcases List.mem_cons.mp hd with h1 | hmem
    · subst h1
      obtain ⟨tl, store1, hstep, -, -, -, hst⟩ :=
        backfill_step_eq fetch sqlOk (fun _ => true) evs store d
      have hstep' : backfill_step fetch sqlOk (fun _ => true) (evs, store, none) d =
          (evs ++ tl, store1, none) := hstep.trans rfl
      rw [List.foldl_cons, hstep']
      obtain ⟨tl2, store', hfold, hsub⟩ := backfill_fold_eq fetch sqlOk ds (evs ++ tl) store1
      rw [hfold]
      rw [hst hne hs] at hsub
      exact (List.sublist_append_right store (fetch d).rows).trans hsub
    · obtain ⟨tl, store1, hstep, -, -, -, -⟩ :=
        backfill_step_eq fetch sqlOk (fun _ => true) evs store d0
      have hstep' : backfill_step fetch sqlOk (fun _ => true) (evs, store, none) d0 =
          (evs ++ tl, store1, none) := hstep.trans rfl
      rw [List.foldl_cons, hstep']
      exact ih (evs ++ tl) store1 d hmem hne hs

end Currency

namespace Currency

/-- C6: per-date failure isolation.  In the incremental run every planned
date is fetched regardless of other dates failing; every date whose fetch
came back non-empty has its rows inside the single persisted batch, while
a failed (empty) fetch merely leaves its date out of the accumulated
batch; the batch is then handed to `save_data` and, on a successful SQL
write, appended to the store.  In the backfill run a date with a
non-empty fetch and a successful write likewise reaches the store no
matter what happens at other dates. -/
theorem spec_C6 (connectOk queryOk : Bool) (store0 : Store) (file0 : FileState)
    (today : Nat) (fetch : Nat → DataFrame) (sqlOk csvOk : Bool) (d : Nat)
    (storeB : Store) (fileB : FileState) (fetchB : Nat → DataFrame)
    (sqlOkB : Nat → Bool) (d2 : Nat)
    (hrange : resolvedWatermark connectOk queryOk store0 today + 1 ≤ today)
    (hd : d ∈ date_range (resolvedWatermark connectOk queryOk store0 today + 1) today)
    (hne : (fetch d).rows ≠ [])
    (hd2 : d2 ∈ date_range backfillStart backfillEnd)
    (hne2 : (fetchB d2).rows ≠ [])
    (hsql2 : sqlOkB d2 = true) :
    (∀ d', d' ∈ date_range (resolvedWatermark connectOk queryOk store0 today + 1) today →
      Event.fetchCall d' ∈
        (main_api connectOk queryOk store0 file0 today fetch sqlOk csvOk true).events) ∧
    (∀ d', d' ∈ date_range (resolvedWatermark connectOk queryOk store0 today + 1) today →
      (fetch d').rows ≠ [] →
      (fetch d').rows.Sublist
        (concatDFs (collectData fetch
          (date_range (resolvedWatermark connectOk queryOk store0 today + 1) today))).rows) ∧
    (∀ d', (fetch d').rows = [] →
      fetch d' ∉ collectData fetch
        (date_range (resolvedWatermark connectOk queryOk store0 today + 1) today)) ∧
    Event.saveCall
        (concatDFs (collectData fetch
          (date_range (resolvedWatermark connectOk queryOk store0 today + 1) today))).rows.length ∈
      (main_api connectOk queryOk store0 file0 today fetch sqlOk csvOk true).events ∧
    (connectOk = true → sqlOk = true →
      (main_api connectOk queryOk store0 file0 today fetch sqlOk csvOk true).store =
        store0 ++
          (concatDFs (collectData fetch
            (date_range (resolvedWatermark connectOk queryOk store0 today + 1) today))).rows) ∧
    (fetchB d2).rows.Sublist
      (main_date true storeB fileB fetchB sqlOkB (fun _ => true)).store := by
  have hw : ¬ today < resolvedWatermark connectOk queryOk store0 today + 1 := by omega
  have hmemD : fetch d ∈ collectData fetch
      (date_range (resolvedWatermark connectOk queryOk store0 today + 1) today) :=
    mem_collectData hd hne
  have hie : (collectData fetch
      (date_range (resolvedWatermark connectOk queryOk store0 today + 1) today)).isEmpty
        = false :=
    List.isEmpty_eq_false.mpr (List.ne_nil_of_mem hmemD)
  have hbody : main_api connectOk queryOk store0 file0 today fetch sqlOk csvOk true =
      ⟨(match get_db_engine connectOk with
          | some _ => []
          | none => [Event.logError "db unavailable, using fallback"]) ++
          [Event.logInfo "loading range"] ++
          fetchEvents fetch
            (date_range (resolvedWatermark connectOk queryOk store0 today + 1) today) ++
          (save_data_api
            (concatDFs (collectData fetch
              (date_range (resolvedWatermark connectOk queryOk store0 today + 1) today)))
            (get_db_engine connectOk) sqlOk csvOk store0 file0).events,
        (save_data_api
          (concatDFs (collectData fetch
            (date_range (resolvedWatermark connectOk queryOk store0 today + 1) today)))
          (get_db_engine connectOk) sqlOk csvOk store0 file0).store,
        (save_data_api
          (concatDFs (collectData fetch
            (date_range (resolvedWatermark connectOk queryOk store0 today + 1) today)))
          (get_db_engine connectOk) sqlOk csvOk store0 file0).file, 0, none⟩ := by
    simp [main_api, main_api_body, hw, hie]
  obtain ⟨tlB, storeB', hfold, -⟩ := backfill_fold_eq fetchB sqlOkB
    (date_range backfillStart backfillEnd) [Event.logInfo "starting backfill"] storeB
  have hB : backfill_run fetchB sqlOkB (fun _ => true) storeB =
      ([Event.logInfo "starting backfill"] ++ tlB, storeB', none) := hfold
  have hmd : main_date true storeB fileB fetchB sqlOkB (fun _ => true) =
      ⟨([Event.logInfo "starting backfill"] ++ tlB) ++ [Event.logInfo "backfill finished"],
        storeB', fileB, 0, none⟩ := by
    rw [main_date, show get_db_engine true = some () from rfl, hB]
  refine ⟨?_, ?_, ?_, ?_, ?_, ?_⟩
  · intro d' hd'
    rw [hbody]
    exact List.mem_append_left _ (List.mem_append_right _ (fetchCall_mem hd'))
  · intro d' hd' hne'
    exact rows_sublist_concatDFs (mem_collectData hd' hne')
  · intro d' he'
    exact not_mem_collectData he'
  · rw [hbody]
    exact List.mem_append_right _ (saveCall_mem_save_data_api _ _ sqlOk csvOk store0 file0)
  · intro hc hs
    subst hc
    subst hs
    rw [hbody]
    simp [save_data_api, get_db_engine, to_sql_attempt, sqlAppend]
  · have hsubl := backfill_fold_mem fetchB sqlOkB (date_range backfillStart backfillEnd)
      [Event.logInfo "starting backfill"] storeB d2 hd2 (by simpa using hne2) hsql2
    rw [hfold] at hsubl
    rw [hmd]
    exact hsubl

theorem spec_C6_witness :
    (resolvedWatermark true true [] 1 + 1 ≤ 1 ∧
      1 ∈ date_range (resolvedWatermark true true [] 1 + 1) 1 ∧
      backfillStart ∈ date_range backfillStart backfillEnd) ∧
    Event.fetchCall 1 ∈ (main_api true true [] ⟨false, []⟩ 1
      (fun _ => DataFrame.mk canonicalColumns [[Cell.date 1]]) true true true).events ∧
    (main_api true true [] ⟨false, []⟩ 1
        (fun _ => DataFrame.mk canonicalColumns [[Cell.date 1]]) true true true).store =
      [] ++ (concatDFs (collectData (fun _ => DataFrame.mk canonicalColumns [[Cell.date 1]])
        (date_range (resolvedWatermark true true [] 1 + 1) 1))).rows ∧
    (DataFrame.mk canonicalColumns [[Cell.date 1]]).rows.Sublist
      (main_date true [] ⟨false, []⟩ (fun _ => DataFrame.mk canonicalColumns [[Cell.date 1]])
        (fun _ => true) (fun _ => true)).store := by
  have hbmem : backfillStart ∈ date_range backfillStart backfillEnd :=
    date_range_mem.mpr ⟨le_refl _, by decide⟩
  have h := spec_C6 true true [] ⟨false, []⟩ 1
    (fun _ => DataFrame.mk canonicalColumns [[Cell.date 1]]) true true 1
    [] ⟨false, []⟩ (fun _ => DataFrame.mk canonicalColumns [[Cell.date 1]])
    (fun _ => true) backfillStart
    (by decide) (by decide) (by decide) hbmem (by decide) rfl
  exact ⟨⟨by decide, by decide, hbmem⟩, h.1 1 (by decide), h.2.2.2.2.1 rfl rfl, h.2.2.2.2.2⟩

end Currency

namespace Currency

theorem backfill_fold_no_critical (fetch : Nat → DataFrame) (sqlOk sleepOk : Nat → Bool) :
    ∀ (l : List Nat) (acc : List Event × Store × Option String),
      (∀ m, Event.logCritical m ∉ acc.1) →
      ∀ m, Event.logCritical m ∉ (l.foldl (backfill_step fetch sqlOk sleepOk) acc).1 := by
  intro l
  induction l with
  | nil => intro acc h m; exact h m
  | cons d0 ds ih =>
    intro acc h m
    rw [List.foldl_cons]
    obtain ⟨evs, store, cr⟩ := acc
    cases cr with
    | some e =>
      rw [backfill_step_crashed]
      exact ih (evs, store, some e) h m
    | none =>
      obtain ⟨tl, store', hstep, -, -, hnc, -⟩ :=
        backfill_step_eq fetch sqlOk sleepOk evs store d0
      rw [hstep]
      refine ih _ ?_ m
      intro m'
      simp only [List.mem_append]
      rintro (hm | hm)
      · exact h m' hm
      · exact hnc m' hm

theorem main_date_no_critical (connectOk : Bool) (store0 : Store) (file0 : FileState)
    (fetch : Nat → DataFrame) (sqlOk sleepOk : Nat → Bool) (m : String) :
    Event.logCritical m ∉ (main_date connectOk store0 file0 fetch sqlOk sleepOk).events := by
  cases connectOk with
  | false =>
    rw [main_date, show get_db_engine false = none from rfl]
    simp
  | true =>
    have hnc : ∀ m', Event.logCritical m' ∉ (backfill_run fetch sqlOk sleepOk store0).1 :=
      backfill_fold_no_critical fetch sqlOk sleepOk (date_range backfillStart backfillEnd)
        ([Event.logInfo "starting backfill"], store0, none) (by intro m'; simp)
    rcases hF : backfill_run fetch sqlOk sleepOk store0 with ⟨evs1, store1, cr⟩
    rw [hF] at hnc
    rw [main_date, show get_db_engine true = some () from rfl, hF]
    cases cr with
    | none =>
      simp only [List.mem_append]
      rintro (hm | hm)
      · exact hnc m hm
      · simp at hm
    | some e => exact hnc m

theorem main_date_sleep_crash :
    main_date true [] ⟨false, []⟩ (fun _ => DataFrame.emptyDF) (fun _ => true)
        (fun _ => false) =
      ⟨[Event.logInfo "starting backfill", Event.fetchCall backfillStart,
          Event.logWarn "no data for date"], [], ⟨false, []⟩, 0,
        some "interrupted during sleep"⟩ := by
  have hle : backfillStart ≤ backfillEnd := by decide
  have hcons := date_range_cons hle
  have hstep : backfill_step (fun _ => DataFrame.emptyDF) (fun _ => true) (fun _ => false)
      ([Event.logInfo "starting backfill"], ([] : Store), none) backfillStart =
      ([Event.logInfo "starting backfill", Event.fetchCall backfillStart,
        Event.logWarn "no data for date"], [], some "interrupted during sleep") := by
    simp [backfill_step, DataFrame.emptyDF]
  have hB : backfill_run (fun _ => DataFrame.emptyDF) (fun _ => true) (fun _ => false) [] =
      ([Event.logInfo "starting backfill", Event.fetchCall backfillStart,
        Event.logWarn "no data for date"], [], some "interrupted during sleep") := by
    rw [backfill_run, hcons, List.foldl_cons, hstep,
      backfill_fold_crashed (fun _ => DataFrame.emptyDF) (fun _ => true) (fun _ => false)]
  rw [main_date, show get_db_engine true = some () from rfl, hB]

/-- C8 (amended): only the incremental variant has a top-level handler.
Whenever the body of the incremental `main` lets an exception escape, the
wrapper catches it, appends a critical log record and returns normally
with exit code 0, so the incremental run never crashes.  The backfill
`main` has no such handler: when its loop crashes, no critical record is
ever logged — the exception propagates uncaught. -/
theorem spec_C8 (connectOk queryOk : Bool) (store0 : Store) (file0 : FileState)
    (today : Nat) (fetch : Nat → DataFrame) (sqlOk csvOk concatOk : Bool)
    (connectOkB : Bool) (storeB : Store) (fileB : FileState) (fetchB : Nat → DataFrame)
    (sqlOkB sleepOkB : Nat → Bool) (e e' : String)
    (hbe : (main_api_body connectOk queryOk store0 file0 today fetch sqlOk csvOk
      concatOk).crashed = some e)
    (_hde : (main_date connectOkB storeB fileB fetchB sqlOkB sleepOkB).crashed = some e') :
    (main_api connectOk queryOk store0 file0 today fetch sqlOk csvOk concatOk).crashed = none ∧
    (main_api connectOk queryOk store0 file0 today fetch sqlOk csvOk concatOk).events =
      (main_api_body connectOk queryOk store0 file0 today fetch sqlOk csvOk concatOk).events ++
        [Event.logCritical e] ∧
    (main_api connectOk queryOk store0 file0 today fetch sqlOk csvOk concatOk).exitCode = 0 ∧
    (∀ m, Event.logCritical m ∉
      (main_date connectOkB storeB fileB fetchB sqlOkB sleepOkB).events) := by
  refine ⟨?_, ?_, ?_, fun m => main_date_no_critical connectOkB storeB fileB fetchB
    sqlOkB sleepOkB m⟩
  · simp [main_api, hbe]
  · simp [main_api, hbe]
  · simp [main_api, hbe]

/-- C8 is false as stated: at this concrete input the backfill `main`
lets the exception raised during the inter-request sleep propagate —
`crashed` is set and no fatal/critical record is logged, contradicting
the claim that in both modes every top-level exception is caught and
logged. -/
theorem spec_C8_counterexample :
    (main_date true [] ⟨false, []⟩ (fun _ => DataFrame.emptyDF) (fun _ => true)
        (fun _ => false)).crashed = some "interrupted during sleep" ∧
    ∀ m, Event.logCritical m ∉
      (main_date true [] ⟨false, []⟩ (fun _ => DataFrame.emptyDF) (fun _ => true)
        (fun _ => false)).events := by
  rw [main_date_sleep_crash]
  exact ⟨rfl, fun m => by simp⟩

theorem spec_C8_witness :
    (main_api_body false true [] ⟨false, []⟩ 1
        (fun _ => DataFrame.mk canonicalColumns [[Cell.date 1]]) true true false).crashed =
      some "concat failed" ∧
    (main_date true [] ⟨false, []⟩ (fun _ => DataFrame.emptyDF) (fun _ => true)
        (fun _ => false)).crashed = some "interrupted during sleep" ∧
    (main_api false true [] ⟨false, []⟩ 1
        (fun _ => DataFrame.mk canonicalColumns [[Cell.date 1]]) true true false).crashed =
      none ∧
    (main_api false true [] ⟨false, []⟩ 1
        (fun _ => DataFrame.mk canonicalColumns [[Cell.date 1]]) true true false).events =
      (main_api_body false true [] ⟨false, []⟩ 1
        (fun _ => DataFrame.mk canonicalColumns [[Cell.date 1]]) true true false).events ++
        [Event.logCritical "concat failed"] := by
  have h1 : (main_api_body false true [] ⟨false, []⟩ 1
      (fun _ => DataFrame.mk canonicalColumns [[Cell.date 1]]) true true false).crashed =
      some "concat failed" := rfl
  have h2 : (main_date true [] ⟨false, []⟩ (fun _ => DataFrame.emptyDF) (fun _ => true)
      (fun _ => false)).crashed = some "interrupted during sleep" := by
    rw [main_date_sleep_crash]
  have h := spec_C8 false true [] ⟨false, []⟩ 1
    (fun _ => DataFrame.mk canonicalColumns [[Cell.date 1]]) true true false
    true [] ⟨false, []⟩ (fun _ => DataFrame.emptyDF) (fun _ => true) (fun _ => false)
    "concat failed" "interrupted during sleep" h1 h2
  exact ⟨h1, h2, h.1, h.2.1⟩

end Currency

namespace Currency

theorem except_ok_inj {α : Type} {a b : α}
    (h : (Except.ok a : Except String α) = Except.ok b) : a = b := by
  injection h

theorem valueConv_ok {c c' : Cell} (h : valueConv c = Except.ok c') :
    ∃ s q, c = Cell.str s ∧ parseDecimal (commaToDot s) = some q ∧ c' = Cell.rat q := by
  cases c with
  | str s =>
    cases hp : parseDecimal (commaToDot s) with
    | none => rw [valueConv, hp] at h; cases h
    | some q =>
      rw [valueConv, hp] at h
      exact ⟨s, q, rfl, hp, (except_ok_inj h).symm⟩
  | int n => cases h
  | rat q => cases h
  | date d0 => cases h

theorem nominalConv_ok {c c' : Cell} (h : nominalConv c = Except.ok c') :
    ∃ n, c' = Cell.int n := by
  cases c with
  | str s =>
    cases hp : parseIntStr? s with
    | none => rw [nominalConv, hp] at h; cases h
    | some n =>
      rw [nominalConv, hp] at h
      exact ⟨n, (except_ok_inj h).symm⟩
  | int n => exact ⟨n, (except_ok_inj h).symm⟩
  | rat q => exact ⟨q.num.tdiv (q.den : Int), (except_ok_inj h).symm⟩
  | date d0 => cases h

theorem row_pipeline (d : Nat) (r : ProviderRow) {b1 b2 b3 o : List Cell}
    (hb1 : convertCellAt 5 valueConv (r.cells ++ [Cell.date d]) = Except.ok b1)
    (hb2 : convertCellAt 4 nominalConv b1 = Except.ok b2)
    (hb3 : (rateCell 5 4 b2 >>= fun c => pure (b2 ++ [c])) = Except.ok b3)
    (hb4 : projectRow [6, 2, 3, 4, 5, 7] b3 = Except.ok o) :
    ∃ s q n, r.value = Cell.str s ∧ parseDecimal (commaToDot s) = some q ∧
      nominalConv r.nominal = Except.ok (Cell.int n) ∧
      o = [Cell.date d, r.charCode, r.name, Cell.int n, Cell.rat q,
        Cell.rat (q / (n : ℚ))] := by
  have hb1' : (valueConv r.value >>= fun c' =>
      Except.ok [r.idAttr, r.numCode, r.charCode, r.name, r.nominal, c', Cell.date d]) =
      Except.ok b1 := hb1
  obtain ⟨c', hc', hp1⟩ := except_bind_ok hb1'
  obtain ⟨s, q, hs, hq, rfl⟩ := valueConv_ok hc'
  have he1 := except_ok_inj hp1
  subst he1
  have hb2' : (nominalConv r.nominal >>= fun c'' =>
      Except.ok [r.idAttr, r.numCode, r.charCode, r.name, c'', Cell.rat q, Cell.date d]) =
      Except.ok b2 := hb2
  obtain ⟨c'', hc'', hp2⟩ := except_bind_ok hb2'
  obtain ⟨n, rfl⟩ := nominalConv_ok hc''
  have he2 := except_ok_inj hp2
  subst he2
  have hb3' : Except.ok ([r.idAttr, r.numCode, r.charCode, r.name, Cell.int n, Cell.rat q,
      Cell.date d] ++ [Cell.rat (q / (n : ℚ))]) = Except.ok b3 := hb3
  have he3 := except_ok_inj hb3'
  subst he3
  have hb4' : Except.ok [Cell.date d, r.charCode, r.name, Cell.int n, Cell.rat q,
      Cell.rat (q / (n : ℚ))] = Except.ok o := hb4
  exact ⟨s, q, n, hs, hq, hc'', (except_ok_inj hb4').symm⟩

/-- C1: on every well-formed provider response, `get_cbr_rates` (both
variants) returns the table whose columns are exactly
Date, CurrencyCode, CurrencyName, Nominal, Value, Rate in that order,
where row by row the comma decimal separator of the provider's Value
string is replaced by a dot before decimal parsing, Nominal is coerced to
an integer, Rate is derived as Value / Nominal, and the provider's
CharCode and Name fields land in the canonical currency-code and
currency-name positions. -/
theorem spec_C1 (d now : Nat) (prows : List ProviderRow) (out : DataFrame)
    (h : transform d (providerDF prows) = Except.ok out) :
    get_cbr_rates_date d (Except.ok (providerDF prows)) = out ∧
    get_cbr_rates_api now (some d) (Except.ok (providerDF prows)) = out ∧
    out.columns = canonicalColumns ∧
    List.Forall₂ (fun (r : ProviderRow) (o : List Cell) =>
      ∃ s q n, r.value = Cell.str s ∧ parseDecimal (commaToDot s) = some q ∧
        nominalConv r.nominal = Except.ok (Cell.int n) ∧
        o = [Cell.date d, r.charCode, r.name, Cell.int n, Cell.rat q,
          Cell.rat (q / (n : ℚ))]) prows out.rows := by
  have hres1 : get_cbr_rates_date_result d (Except.ok (providerDF prows)) =
      transform d (providerDF prows) := rfl
  have hres2 : get_cbr_rates_api_result now (some d) (Except.ok (providerDF prows)) =
      transform d (providerDF prows) := rfl
  have hget1 : get_cbr_rates_date d (Except.ok (providerDF prows)) = out := by
    rw [get_cbr_rates_date, hres1, h]
  have hget2 : get_cbr_rates_api now (some d) (Except.ok (providerDF prows)) = out := by
    rw [get_cbr_rates_api, hres2, h]
  simp only [transform] at h
  have h1 : setConstCol (providerDF prows) "Date" (Cell.date d) =
      ⟨["ID", "NumCode", "CharCode", "Name", "Nominal", "Value", "Date"],
        prows.map (fun r => r.cells ++ [Cell.date d])⟩ := by
    simp [setConstCol, providerDF, providerColumns, colIndex, List.map_map, Function.comp]
  rw [h1] at h
  obtain ⟨df2, hd2, h⟩ := except_bind_ok h
  have hd2' : (mapME (convertCellAt 5 valueConv)
        (prows.map (fun r => r.cells ++ [Cell.date d])) >>= fun rows2 =>
      Except.ok (DataFrame.mk
        ["ID", "NumCode", "CharCode", "Name", "Nominal", "Value", "Date"] rows2)) =
      Except.ok df2 := hd2
  obtain ⟨rows2, hrows2, hp2⟩ := except_bind_ok hd2'
  have he2 := except_ok_inj hp2
  subst he2
  obtain ⟨df3, hd3, h⟩ := except_bind_ok h
  have hd3' : (mapME (convertCellAt 4 nominalConv) rows2 >>= fun rows3 =>
      Except.ok (DataFrame.mk
        ["ID", "NumCode", "CharCode", "Name", "Nominal", "Value", "Date"] rows3)) =
      Except.ok df3 := hd3
  obtain ⟨rows3, hrows3, hp3⟩ := except_bind_ok hd3'
  have he3 := except_ok_inj hp3
  subst he3
  obtain ⟨df4, hd4, h⟩ := except_bind_ok h
  have hd4' : (mapME (fun r0 => rateCell 5 4 r0 >>= fun c => Except.ok (r0 ++ [c])) rows3 >>=
      fun rows4 => Except.ok (DataFrame.mk
        ["ID", "NumCode", "CharCode", "Name", "Nominal", "Value", "Date", "Rate"] rows4)) =
      Except.ok df4 := hd4
  obtain ⟨rows4, hrows4, hp4⟩ := except_bind_ok hd4'
  have he4 := except_ok_inj hp4
  subst he4
  have h5 : (mapME (projectRow [6, 2, 3, 4, 5, 7]) rows4 >>= fun rows5 =>
      Except.ok (DataFrame.mk canonicalColumns rows5)) = Except.ok out := h
  obtain ⟨rows5, hrows5, hp5⟩ := except_bind_ok h5
  have he5 := except_ok_inj hp5
  subst he5
  refine ⟨hget1, hget2, rfl, ?_⟩
  have F1 := List.forall₂_map_left_iff.mp (mapME_ok_iff.mp hrows2)
  have F2 := mapME_ok_iff.mp hrows3
  have F3 := mapME_ok_iff.mp hrows4
  have F4 := mapME_ok_iff.mp hrows5
  refine List.Forall₂.imp ?_ (forall₂_comp (forall₂_comp (forall₂_comp F1 F2) F3) F4)
  intro r o hq
  obtain ⟨b3, ⟨b2, ⟨b1, hb1, hb2⟩, hb3⟩, hb4⟩ := hq
  exact row_pipeline d r hb1 hb2 hb3 hb4

theorem spec_C1_witness :
    transform 100 (providerDF [⟨Cell.int 1, Cell.str "840", Cell.str "USD",
        Cell.str "US Dollar", Cell.int 1, Cell.str "90,50"⟩]) =
      Except.ok (DataFrame.mk canonicalColumns
        [[Cell.date 100, Cell.str "USD", Cell.str "US Dollar", Cell.int 1,
          Cell.rat ((181 : ℚ) / 2), Cell.rat ((181 : ℚ) / 2)]]) ∧
    get_cbr_rates_date 100 (Except.ok (providerDF [⟨Cell.int 1, Cell.str "840",
        Cell.str "USD", Cell.str "US Dollar", Cell.int 1, Cell.str "90,50"⟩])) =
      DataFrame.mk canonicalColumns
        [[Cell.date 100, Cell.str "USD", Cell.str "US Dollar", Cell.int 1,
          Cell.rat ((181 : ℚ) / 2), Cell.rat ((181 : ℚ) / 2)]] ∧
    (DataFrame.mk canonicalColumns
      [[Cell.date 100, Cell.str "USD", Cell.str "US Dollar", Cell.int 1,
        Cell.rat ((181 : ℚ) / 2), Cell.rat ((181 : ℚ) / 2)]]).columns = canonicalColumns := by
  have hT : transform 100 (providerDF [⟨Cell.int 1, Cell.str "840", Cell.str "USD",
      Cell.str "US Dollar", Cell.int 1, Cell.str "90,50"⟩]) =
      Except.ok (DataFrame.mk canonicalColumns
        [[Cell.date 100, Cell.str "USD", Cell.str "US Dollar", Cell.int 1,
          Cell.rat ((181 : ℚ) / 2), Cell.rat ((181 : ℚ) / 2)]]) := by
    with_unfolding_all rfl
  have h := spec_C1 100 0 [⟨Cell.int 1, Cell.str "840", Cell.str "USD",
    Cell.str "US Dollar", Cell.int 1, Cell.str "90,50"⟩] _ hT
  exact ⟨hT, h.1, h.2.2.1⟩

end Currency
